import Mathlib

/-
Verification of the Plex watchlist sync pipeline (src/main.ts).

The plugin's effectful pipeline is shallowly embedded as a state monad over
an explicit vault (folders plus files), together with a ghost trace of
calls to external collaborators and console log lines.  External
collaborators (the HTTP transport, the platform XML parser, the JS date
parser, and storage-level I/O failures) are supplied as oracles in an
`Env` record, since their internals are outside this repository; the code
under `src/main.ts` is translated directly.
-/

set_option autoImplicit false
set_option maxRecDepth 16384

namespace PlexSync

/-- One parsed `item` element as the DOM exposes it to `checkFeed`:
each field is `some` text when the sub-element (with text content) is
present and `none` otherwise.  `thumbnail` is doubly optional: the outer
layer is presence of the `media:thumbnail`/`thumbnail` element, the inner
layer is presence of its `url` attribute (`getAttribute` yields null when
the attribute is absent). -/
structure FeedItem where
  title : Option String
  link : Option String
  pubDate : Option String
  description : Option String
  category : Option String
  thumbnail : Option (Option String)
  keywords : Option String
  rating : Option String
  guid : Option String
deriving DecidableEq

/-- The result of parsing one feed page: the `item` elements in document
order, and the `link[rel="next"]` element when present (outer layer), with
its `href` attribute when present (inner layer). -/
structure FeedDoc where
  items : List FeedItem
  nextLink : Option (Option String)
deriving DecidableEq

/-- The record built per item in `checkFeed` (src/main.ts lines 62-107).
`poster` is `Option String` because `thumbnail.getAttribute("url")` yields
null (here `none`) when the element is present without a `url` attribute;
every other field is defaulted to `""` by `?? ""`.  `year` is
`new Date(pubDate).getFullYear()`: `none` models `NaN`. -/
structure ShowEntry where
  title : String
  link : String
  pubDate : String
  description : String
  category : String
  poster : Option String
  keywords : String
  rating : String
  guid : String
  year : Option Int
deriving DecidableEq

/-- The two persisted plugin settings (src/main.ts lines 12-21). -/
structure Settings where
  feedUrl : String
  folderPath : String
deriving DecidableEq

/-- Defaults for the settings (src/main.ts lines 18-21). -/
def DEFAULT_SETTINGS : Settings := { feedUrl := "", folderPath := "" }

/-- The document store: the set of existing folder paths and the existing
files as an association list from path to current content. -/
structure Vault where
  folders : List String
  files : List (String × String)
deriving DecidableEq

/-- Ghost trace entries: calls to external collaborators
(`fetchCall`), the plugin's own console lines (`itemsLog` for line 60,
`nextLog` for line 116, `feedErr` for line 121, `watchErr` for line 196),
and the invocation of `updateWatchlist` (`syncCall`). -/
inductive Ev where
  | fetchCall (url : String)
  | itemsLog (n : Nat)
  | syncCall (n : Nat)
  | nextLog (url : String)
  | feedErr
  | watchErr
deriving DecidableEq

/-- The error taxonomy of the run: network failure, markup that the
platform parser rejects, and storage-level I/O failure. -/
inductive Err where
  | network
  | parseFail
  | storage
deriving DecidableEq

/-- Mutable state threaded through a sync run: the vault and the ghost
event trace. -/
structure S where
  vault : Vault
  events : List Ev
deriving DecidableEq

/-- External collaborators, supplied as oracles: the HTTP transport
(`fetchText`, failing with a network error), the platform XML parser
(`parseDoc`, failing with a parse error), the JS date parser
(`dateYear`, `none` for an unparseable date, i.e. `NaN`), and a fault
model for storage operations (`storageFault p = true` makes the folder
creation / file creation / file write touching path `p` reject). -/
structure Env where
  fetchText : String → Except Unit String
  parseDoc : String → Except Unit FeedDoc
  dateYear : String → Option Int
  storageFault : String → Bool

/-! ## Pure helpers translated from the source -/

/-- The character class of the replacement regex on src/main.ts line 166:
`[\/\?<>\\:\*\|":]` (the colon is listed twice in the source). -/
def illegalChars : List Char :=
  ['/', '?', '<', '>', '\\', ':', '*', '|', '"', ':']

/-- Replace one character as the regex replacement does. -/
def sanitizeChar (c : Char) : Char :=
  if c ∈ illegalChars then '_' else c

/-- The title sanitization `title.replace(/[\/\?<>\\:\*\|":]/g, "_")`
(src/main.ts lines 165-168). -/
def sanitize (t : String) : String :=
  String.mk (t.data.map sanitizeChar)

/-- Split a character list at every slash. -/
def splitSlashAux : List Char → List Char → List (List Char)
  | [], acc => [acc.reverse]
  | c :: rest, acc =>
      if c = '/' then acc.reverse :: splitSlashAux rest []
      else splitSlashAux rest (c :: acc)

/-- Rejoin path segments with single slashes. -/
def joinSlash : List (List Char) → List Char
  | [] => []
  | [seg] => seg
  | seg :: rest => seg ++ '/' :: joinSlash rest

/-- Model of Obsidian's `normalizePath` (an external collaborator):
collapses consecutive slashes and trims leading and trailing slashes. -/
def normalizePath (p : String) : String :=
  String.mk (joinSlash (List.filter (fun seg => seg ≠ []) (splitSlashAux p.data [])))

/-- Model of JS `String.prototype.toLowerCase` (a platform primitive):
character-wise ASCII lowering, which agrees with the JS behavior on every
comparison against the ASCII literal `"movie"`. -/
def toLowerStr (s : String) : String :=
  String.mk (s.data.map Char.toLower)

/-- The classification decision of src/main.ts lines 160-163: the target
is the movies folder exactly when `category.toLowerCase() === "movie"`;
written as the spec's `classify` function, valued in
`"movie"`/`"series"`. -/
def classify (category : String) : String :=
  if toLowerStr category = "movie" then "movie" else "series"

/-- `normalizePath(folderPath + "/shows")` (src/main.ts line 142). -/
def showsPath (folderPath : String) : String :=
  normalizePath (folderPath ++ "/shows")

/-- `normalizePath(folderPath + "/movies")` (src/main.ts line 143). -/
def moviesPath (folderPath : String) : String :=
  normalizePath (folderPath ++ "/movies")

/-- `normalizePath(folderPath + "/watch.md")` (src/main.ts line 201). -/
def watchPath (folderPath : String) : String :=
  normalizePath (folderPath ++ "/watch.md")

/-- The per-entry target file path (src/main.ts lines 160-169). -/
def entryPath (folderPath : String) (sh : ShowEntry) : String :=
  normalizePath
    ((if toLowerStr sh.category = "movie" then moviesPath folderPath
      else showsPath folderPath)
      ++ "/" ++ sanitize sh.title ++ ".md")

/-- JS string interpolation of a `string | null` value: null renders as
the literal `null`. -/
def optText : Option String → String
  | some t => t
  | none => "null"

/-- JS string interpolation of `getFullYear()`: `NaN` renders as the
literal `NaN`. -/
def yearText : Option Int → String
  | some y => toString y
  | none => "NaN"

/-- The front-matter block rendered for one entry
(src/main.ts lines 178-189). -/
def entryContent (sh : ShowEntry) : String :=
  "---\n"
  ++ "title: " ++ sh.title ++ "\n"
  ++ "link: " ++ sh.link ++ "\n"
  ++ "pubDate: " ++ sh.pubDate ++ "\n"
  ++ "description: " ++ sh.description ++ "\n"
  ++ "category: " ++ sh.category ++ "\n"
  ++ "poster: " ++ optText sh.poster ++ "\n"
  ++ "keywords: " ++ sh.keywords ++ "\n"
  ++ "rating: " ++ sh.rating ++ "\n"
  ++ "guid: " ++ sh.guid ++ "\n"
  ++ "year: " ++ yearText sh.year ++ "\n"
  ++ "---\n"

/-- The fixed content written to `watch.md`
(src/main.ts lines 209-221). -/
def watchTemplate : String :=
  "---\n"
  ++ "cssclasses: cards, cards-cover, cards-2-3, table-max\n"
  ++ "---\n\n"
  ++ "```dataview\n"
  ++ "table without id\n"
  ++ "\t(\"![](\" + poster + \")\") as Poster,\n"
  ++ "\tfile.link as Title,\n"
  ++ "\tstring(year) as Year,\n"
  ++ "\tpubDate as \"Date Added\"\n"
  ++ "from \"plex/movies\"\n"
  ++ "sort pubDate desc, title asc\n"
  ++ "```\n"

/-- The per-item field extraction of src/main.ts lines 62-107.  All text
fields use `?? ""`; `poster` is `""` when the thumbnail element is absent
but passes the raw `getAttribute("url")` result through when the element
is present. -/
def extractShow (env : Env) (it : FeedItem) : ShowEntry :=
  { title := it.title.getD ""
  , link := it.link.getD ""
  , pubDate := it.pubDate.getD ""
  , description := it.description.getD ""
  , category := it.category.getD ""
  , poster :=
      match it.thumbnail with
      | some u => u
      | none => some ""
  , keywords := it.keywords.getD ""
  , rating := it.rating.getD ""
  , guid := it.guid.getD ""
  , year := env.dateYear (it.pubDate.getD "") }

/-- Substring test (used only to state properties about rendered
content). -/
def strContains (hay needle : String) : Bool :=
  (List.range (hay.data.length + 1)).any
    (fun i => needle.data.isPrefixOf (hay.data.drop i))

/-! ## Vault primitives -/

/-- First value bound to `p` in the file association list. -/
def lookupFile : List (String × String) → String → Option String
  | [], _ => none
  | (q, c) :: rest, p => if q = p then some c else lookupFile rest p

/-- Write `c` at key `p`: replace the first binding of `p`, or append a
new binding when `p` is absent. -/
def setFile : List (String × String) → String → String → List (String × String)
  | [], p, c => [(p, c)]
  | (q, d) :: rest, p, c =>
      if q = p then (q, c) :: rest else (q, d) :: setFile rest p c

/-- `app.vault.adapter.exists`: the path names an existing folder or an
existing file. -/
def existsPath (v : Vault) (p : String) : Bool :=
  decide (p ∈ v.folders) || decide (p ∈ v.files.map Prod.fst)

/-! ## The state monad of a sync run -/

/-- A step of the run: threads the state and either returns a value or
raises an error; the state at the failure point is preserved (JS
exceptions do not roll mutations back). -/
def M (α : Type) : Type := S → Except Err α × S

/-- Return. -/
def pureM {α : Type} (a : α) : M α := fun s => (Except.ok a, s)

/-- Sequencing: an error short-circuits, keeping the state reached so
far. -/
def bindM {α β : Type} (m : M α) (f : α → M β) : M β := fun s =>
  match m s with
  | (Except.ok a, s2) => f a s2
  | (Except.error e, s2) => (Except.error e, s2)

/-- `try { m } catch (e) { h e }`. -/
def tryCatchM {α : Type} (m : M α) (h : Err → M α) : M α := fun s =>
  match m s with
  | (Except.ok a, s2) => (Except.ok a, s2)
  | (Except.error e, s2) => h e s2

/-- Record a ghost trace event. -/
def emit (ev : Ev) : M Unit := fun s =>
  (Except.ok (), { s with events := s.events ++ [ev] })

/-- `await this.app.vault.adapter.exists(p)`. -/
def adapterExists (p : String) : M Bool := fun s =>
  (Except.ok (existsPath s.vault p), s)

/-- `await this.app.vault.createFolder(p)`: rejects on a scheduled
storage fault or when the path already exists. -/
def createFolder (env : Env) (p : String) : M Unit := fun s =>
  if env.storageFault p then (Except.error Err.storage, s)
  else if existsPath s.vault p then (Except.error Err.storage, s)
  else (Except.ok (), { s with vault := { s.vault with folders := p :: s.vault.folders } })

/-- `this.app.vault.getAbstractFileByPath(p)`: a synchronous lookup of
the file at `p`, never failing. -/
def getFileByPath (p : String) : M (Option String) := fun s =>
  (Except.ok (lookupFile s.vault.files p), s)

/-- `await this.app.vault.create(p, c)`: rejects on a scheduled storage
fault or when something already exists at `p`. -/
def createFile (env : Env) (p c : String) : M Unit := fun s =>
  if env.storageFault p then (Except.error Err.storage, s)
  else if existsPath s.vault p then (Except.error Err.storage, s)
  else (Except.ok (), { s with vault := { s.vault with files := s.vault.files ++ [(p, c)] } })

/-- `await this.app.vault.modify(file, c)`: rejects on a scheduled
storage fault or when the file does not exist. -/
def modifyFile (env : Env) (p c : String) : M Unit := fun s =>
  if env.storageFault p then (Except.error Err.storage, s)
  else if decide (p ∈ s.vault.files.map Prod.fst) then
    (Except.ok (), { s with vault := { s.vault with files := setFile s.vault.files p c } })
  else (Except.error Err.storage, s)

/-- `await fetch(url)` followed by `await response.text()`
(src/main.ts lines 55-56): records the call, then either yields the page
text or raises a network error. -/
def fetchM (env : Env) (url : String) : M String := fun s =>
  match env.fetchText url with
  | Except.ok t =>
      (Except.ok t, { s with events := s.events ++ [Ev.fetchCall url] })
  | Except.error _ =>
      (Except.error Err.network, { s with events := s.events ++ [Ev.fetchCall url] })

/-- `new DOMParser().parseFromString(text, "application/xml")` plus the
item / next-link queries (src/main.ts lines 57-59, 112): the platform
parser either yields the document structure or raises a parse error. -/
def parseM (env : Env) (text : String) : M FeedDoc := fun s =>
  match env.parseDoc text with
  | Except.ok d => (Except.ok d, s)
  | Except.error _ => (Except.error Err.parseFail, s)

/-! ## The pipeline (src/main.ts lines 49-224) -/

/-- The body of one loop iteration in `updateWatchlist`
(src/main.ts lines 158-192): look the target file up, create it empty
when absent, then overwrite it with the rendered front matter. -/
def writeEntry (env : Env) (folderPath : String) (sh : ShowEntry) : M Unit :=
  bindM (getFileByPath (entryPath folderPath sh)) (fun file =>
    bindM
      (match file with
       | none => createFile env (entryPath folderPath sh) ""
       | some _ => pureM ())
      (fun _ => modifyFile env (entryPath folderPath sh) (entryContent sh)))

/-- The sequential entry loop of src/main.ts lines 158-192. -/
def syncEntries (env : Env) (folderPath : String) : List ShowEntry → M Unit
  | [] => pureM ()
  | sh :: rest =>
      bindM (writeEntry env folderPath sh) (fun _ => syncEntries env folderPath rest)

/-- `updateWatchFile` (src/main.ts lines 200-224): create `watch.md`
when absent, then overwrite it with the fixed template. -/
def updateWatchFile (env : Env) (folderPath : String) : M Unit :=
  bindM (getFileByPath (watchPath folderPath)) (fun f =>
    bindM
      (match f with
       | none => createFile env (watchPath folderPath) ""
       | some _ => pureM ())
      (fun _ => modifyFile env (watchPath folderPath) watchTemplate))

/-- The `try` block of `updateWatchlist` (src/main.ts lines 141-194):
check both folders (the two existence checks run before either creation,
as in the `Promise.all`), create the missing ones, write every entry in
order, then regenerate `watch.md`. -/
def updateWatchlistBody (env : Env) (shows : List ShowEntry) (folderPath : String) : M Unit :=
  bindM (adapterExists (showsPath folderPath)) (fun e1 =>
  bindM (adapterExists (moviesPath folderPath)) (fun e2 =>
  bindM (if e1 then pureM () else createFolder env (showsPath folderPath)) (fun _ =>
  bindM (if e2 then pureM () else createFolder env (moviesPath folderPath)) (fun _ =>
  bindM (syncEntries env folderPath shows) (fun _ =>
  updateWatchFile env folderPath)))))

/-- `updateWatchlist` (src/main.ts lines 126-198): the body wrapped in
`try`/`catch`, the catch only logging (`console.error`, line 196).  The
`syncCall` trace event records the invocation. -/
def updateWatchlist (env : Env) (shows : List ShowEntry) (folderPath : String) : M Unit :=
  bindM (emit (Ev.syncCall shows.length)) (fun _ =>
    tryCatchM (updateWatchlistBody env shows folderPath) (fun _ => emit Ev.watchErr))

/-- `const currentUrl = url || feedUrl` (src/main.ts line 51): an absent
or empty argument falls back to the configured feed URL. -/
def resolveUrl (url : Option String) (settings : Settings) : String :=
  match url with
  | some u => if u = "" then settings.feedUrl else u
  | none => settings.feedUrl

/-- The pagination tail of one `checkFeed` invocation (src/main.ts lines
111-119): when a `link[rel="next"]` element exists and carries a
non-empty `href`, log it and continue with `cont` (the recursive
`checkFeed` call); otherwise stop. -/
def nextStep (cont : Option String → M Unit) : Option (Option String) → M Unit
  | some (some nu) =>
      if nu = "" then pureM ()
      else bindM (emit (Ev.nextLog nu)) (fun _ => cont (some nu))
  | some none => pureM ()
  | none => pureM ()

/-- The `try` block of one `checkFeed` invocation (src/main.ts lines
54-119): fetch, parse, log the item count, extract the entries,
synchronize them via `updateWatchlist`, then follow the next-page link
through `cont` (the recursive `checkFeed` call, passed explicitly so the
body can be named outside the fuel recursion). -/
def pageBody (env : Env) (settings : Settings) (cont : Option String → M Unit)
    (u : String) : M Unit :=
  bindM (fetchM env u) (fun text =>
  bindM (parseM env text) (fun doc =>
  bindM (emit (Ev.itemsLog doc.items.length)) (fun _ =>
  bindM (updateWatchlist env (doc.items.map (extractShow env)) settings.folderPath) (fun _ =>
  nextStep cont doc.nextLink))))

/-- `checkFeed` (src/main.ts lines 49-124).  The `fuel` argument is a
modeling device bounding the recursion depth of the page chain (the
source recurses without a bound); every theorem below supplies enough
fuel for its page chain, so the fuel case never fires there.  The run is
a no-op when the resolved URL is empty; otherwise the page body runs with
any error caught and logged (`console.error`, line 121). -/
def checkFeed (env : Env) (settings : Settings) : Nat → Option String → M Unit
  | 0, _ => pureM ()
  | fuel + 1, url =>
    if resolveUrl url settings = "" then pureM ()
    else
      tryCatchM
        (pageBody env settings (checkFeed env settings fuel) (resolveUrl url settings))
        (fun _ => emit Ev.feedErr)

/-! ## Functional characterization of a fault-free sync -/

/-- Folder list after the conditional creation of the shows folder;
the existence check is evaluated on the incoming vault. -/
def foldersAfterShows (folderPath : String) (v : Vault) : List String :=
  if existsPath v (showsPath folderPath) then v.folders
  else showsPath folderPath :: v.folders

/-- Folder list after the folder-creation phase of `updateWatchlist`:
both existence checks are evaluated on the incoming vault, matching the
`Promise.all`. -/
def foldersAfterEnsure (folderPath : String) (v : Vault) : List String :=
  if existsPath v (moviesPath folderPath) then foldersAfterShows folderPath v
  else moviesPath folderPath :: foldersAfterShows folderPath v

/-- The (path, content) pair written for one entry. -/
def entryPair (folderPath : String) (sh : ShowEntry) : String × String :=
  (entryPath folderPath sh, entryContent sh)

/-- The entry writes of one run, in input order. -/
def entryPairs (folderPath : String) (shows : List ShowEntry) : List (String × String) :=
  shows.map (entryPair folderPath)

/-- All writes of one run: the entries in order, then the index note. -/
def runWrites (shows : List ShowEntry) (folderPath : String) : List (String × String) :=
  entryPairs folderPath shows ++ [(watchPath folderPath, watchTemplate)]

/-- Apply a list of writes left to right. -/
def applyWrites (ps : List (String × String)) (fs : List (String × String)) :
    List (String × String) :=
  ps.foldl (fun acc pr => setFile acc pr.1 pr.2) fs

/-- The vault produced by one fault-free `updateWatchlist` run. -/
def updateWatchlistV (shows : List ShowEntry) (folderPath : String) (v : Vault) : Vault :=
  ⟨foldersAfterEnsure folderPath v, applyWrites (runWrites shows folderPath) v.files⟩

/-- Paths written by one run. -/
def writePaths (shows : List ShowEntry) (folderPath : String) : List String :=
  (runWrites shows folderPath).map Prod.fst

/-- Side condition for the fault-free characterization: no written path
names an existing folder or one of the two target folders (writing a
file over a folder path would make the storage layer reject). -/
def pathsClear (shows : List ShowEntry) (folderPath : String) (v : Vault) : Prop :=
  ∀ p ∈ writePaths shows folderPath,
    ¬ p ∈ v.folders ∧ p ≠ showsPath folderPath ∧ p ≠ moviesPath folderPath

instance pathsClear.instDecidable (shows : List ShowEntry) (folderPath : String) (v : Vault) :
    Decidable (pathsClear shows folderPath v) := by
  unfold pathsClear
  infer_instance

/-- Value of the last write to `q` in a write list, when any. -/
def lastWrite : List (String × String) → String → Option String
  | [], _ => none
  | (p, c) :: rest, q =>
      match lastWrite rest q with
      | some d => some d
      | none => if p = q then some c else none

/-- First-biased choice on optional strings. -/
def orO : Option String → Option String → Option String
  | some x, _ => some x
  | none, b => b

/-! ## Association-list lemmas -/

theorem orO_none_right (a : Option String) : orO a none = a := by
  cases a <;> rfl

theorem orO_none_left (b : Option String) : orO none b = b := rfl

theorem orO_some_left (x : String) (b : Option String) : orO (some x) b = some x := rfl

theorem orO_assoc (a b c : Option String) : orO (orO a b) c = orO a (orO b c) := by
  cases a <;> rfl

theorem orO_absorb (a b : Option String) : orO a (orO a b) = orO a b := by
  cases a <;> rfl

theorem lookupFile_setFile (fs : List (String × String)) (p c q : String) :
    lookupFile (setFile fs p c) q = if p = q then some c else lookupFile fs q := by
  induction fs with
  | nil => simp [setFile, lookupFile]
  | cons hd tl ih =>
      obtain ⟨r, d⟩ := hd
      by_cases hrp : r = p
      · subst hrp
        by_cases hpq : r = q <;> simp [setFile, lookupFile, hpq]
      · by_cases hrq : r = q
        · subst hrq
          have hpq : p ≠ r := fun h => hrp h.symm
          simp [setFile, lookupFile, hrp, hpq]
        · simp [setFile, lookupFile, hrp, hrq, ih]

theorem mem_keys_setFile (fs : List (String × String)) (p c q : String) :
    q ∈ (setFile fs p c).map Prod.fst ↔ q ∈ fs.map Prod.fst ∨ q = p := by
  induction fs with
  | nil => simp [setFile]
  | cons hd tl ih =>
      obtain ⟨r, d⟩ := hd
      by_cases hrp : r = p
      · subst hrp
        by_cases hq : q = r <;> simp [setFile, hq]
      · simp [setFile, hrp, ih]
        tauto

theorem lookupFile_eq_none_iff (fs : List (String × String)) (p : String) :
    lookupFile fs p = none ↔ ¬ p ∈ fs.map Prod.fst := by
  induction fs with
  | nil => simp [lookupFile]
  | cons hd tl ih =>
      obtain ⟨r, d⟩ := hd
      by_cases hrp : r = p
      · subst hrp
        simp [lookupFile]
      · have hpr : p ≠ r := fun h => hrp h.symm
        simp [lookupFile, hrp, ih, hpr]

theorem mem_keys_of_lookupFile_some {fs : List (String × String)} {p c : String}
    (h : lookupFile fs p = some c) : p ∈ fs.map Prod.fst := by
  by_contra hmem
  rw [← lookupFile_eq_none_iff] at hmem
  rw [h] at hmem
  exact Option.noConfusion hmem

theorem setFile_eq_append_of_none {fs : List (String × String)} {p : String}
    (h : lookupFile fs p = none) (c : String) : setFile fs p c = fs ++ [(p, c)] := by
  induction fs with
  | nil => rfl
  | cons hd tl ih =>
      obtain ⟨r, d⟩ := hd
      by_cases hrp : r = p
      · subst hrp
        simp [lookupFile] at h
      · simp [lookupFile, hrp] at h
        simp [setFile, hrp, ih h]

theorem setFile_append_of_none {fs : List (String × String)} {p : String}
    (h : lookupFile fs p = none) (d c : String) :
    setFile (fs ++ [(p, d)]) p c = fs ++ [(p, c)] := by
  induction fs with
  | nil => simp [setFile]
  | cons hd tl ih =>
      obtain ⟨r, e⟩ := hd
      by_cases hrp : r = p
      · subst hrp
        simp [lookupFile] at h
      · simp [lookupFile, hrp] at h
        simp [setFile, hrp, ih h]

theorem applyWrites_nil (fs : List (String × String)) : applyWrites [] fs = fs := rfl

theorem applyWrites_cons (p c : String) (ps : List (String × String))
    (fs : List (String × String)) :
    applyWrites ((p, c) :: ps) fs = applyWrites ps (setFile fs p c) := rfl

theorem applyWrites_append (a b : List (String × String)) (fs : List (String × String)) :
    applyWrites (a ++ b) fs = applyWrites b (applyWrites a fs) := by
  simp [applyWrites, List.foldl_append]

theorem lookupFile_applyWrites (ps : List (String × String)) (fs : List (String × String))
    (q : String) :
    lookupFile (applyWrites ps fs) q = orO (lastWrite ps q) (lookupFile fs q) := by
  induction ps generalizing fs with
  | nil => simp [applyWrites, lastWrite, orO]
  | cons hd tl ih =>
      obtain ⟨p, c⟩ := hd
      rw [applyWrites_cons, ih, lookupFile_setFile]
      show _ = orO (lastWrite ((p, c) :: tl) q) _
      cases h : lastWrite tl q with
      | some d => simp [lastWrite, h, orO]
      | none =>
          by_cases hpq : p = q <;> simp [lastWrite, h, orO, hpq]

theorem mem_keys_applyWrites (ps : List (String × String)) (fs : List (String × String))
    (q : String) :
    q ∈ (applyWrites ps fs).map Prod.fst ↔
      q ∈ fs.map Prod.fst ∨ q ∈ ps.map Prod.fst := by
  induction ps generalizing fs with
  | nil => simp [applyWrites]
  | cons hd tl ih =>
      obtain ⟨p, c⟩ := hd
      rw [applyWrites_cons, ih, mem_keys_setFile]
      simp
      tauto

theorem lastWrite_append (a b : List (String × String)) (q : String) :
    lastWrite (a ++ b) q = orO (lastWrite b q) (lastWrite a q) := by
  induction a with
  | nil => simp [lastWrite, orO_none_right]
  | cons hd tl ih =>
      obtain ⟨p, c⟩ := hd
      show lastWrite ((p, c) :: (tl ++ b)) q = _
      cases hb : lastWrite b q with
      | some d =>
          cases ht : lastWrite tl q with
          | some e => simp [lastWrite, ih, hb, ht, orO]
          | none => simp [lastWrite, ih, hb, ht, orO]
      | none =>
          cases ht : lastWrite tl q with
          | some e => simp [lastWrite, ih, hb, ht, orO]
          | none => simp [lastWrite, ih, hb, ht, orO]

/-! ## Run lemmas for the monad primitives

All run lemmas are stated over explicit state constructors, so that
rewriting with them keeps the goal in constructor form. -/

theorem if_bool_true {α : Type} (a b : α) : (if true = true then a else b) = a := rfl

theorem if_bool_false {α : Type} (a b : α) : (if false = true then a else b) = b := rfl

theorem emit_run (ev : Ev) (v : Vault) (evs : List Ev) :
    emit ev ⟨v, evs⟩ = (Except.ok (), ⟨v, evs ++ [ev]⟩) := rfl

theorem adapterExists_run (p : String) (v : Vault) (evs : List Ev) :
    adapterExists p ⟨v, evs⟩ = (Except.ok (existsPath v p), ⟨v, evs⟩) := rfl

theorem getFileByPath_run (p : String) (fo : List String) (fi : List (String × String))
    (evs : List Ev) :
    getFileByPath p ⟨⟨fo, fi⟩, evs⟩ = (Except.ok (lookupFile fi p), ⟨⟨fo, fi⟩, evs⟩) := rfl

theorem bindM_run_ok {α β : Type} {m : M α} {s s' : S} {a : α} (f : α → M β)
    (h : m s = (Except.ok a, s')) : bindM m f s = f a s' := by
  simp [bindM, h]

theorem bindM_run_err {α β : Type} {m : M α} {s s' : S} {e : Err} (f : α → M β)
    (h : m s = (Except.error e, s')) : bindM m f s = (Except.error e, s') := by
  simp [bindM, h]

theorem tryCatchM_bind_ok {α β : Type} {m : M α} {s s' : S} {a : α}
    (f : α → M β) (hdl : Err → M β) (h : m s = (Except.ok a, s')) :
    tryCatchM (bindM m f) hdl s = tryCatchM (f a) hdl s' := by
  simp [tryCatchM, bindM, h]

theorem tryCatchM_bind_err {α β : Type} {m : M α} {s s' : S} {e : Err}
    (f : α → M β) (hdl : Err → M β) (h : m s = (Except.error e, s')) :
    tryCatchM (bindM m f) hdl s = hdl e s' := by
  simp [tryCatchM, bindM, h]

theorem tryCatchM_run_ok {α : Type} {m : M α} {s s' : S} {a : α}
    (hdl : Err → M α) (h : m s = (Except.ok a, s')) :
    tryCatchM m hdl s = (Except.ok a, s') := by
  simp [tryCatchM, h]

theorem tryCatchM_pure {α : Type} (a : α) (hdl : Err → M α) (s : S) :
    tryCatchM (pureM a) hdl s = (Except.ok a, s) := rfl

theorem createFolder_noFault {env : Env} {p : String} (fo : List String)
    (fi : List (String × String)) (evs : List Ev)
    (hF : env.storageFault p = false) (hE : existsPath ⟨fo, fi⟩ p = false) :
    createFolder env p ⟨⟨fo, fi⟩, evs⟩ =
      (Except.ok (), ⟨⟨p :: fo, fi⟩, evs⟩) := by
  simp [createFolder, hF, hE]

theorem createFile_noFault {env : Env} {p : String} (c : String) (fo : List String)
    (fi : List (String × String)) (evs : List Ev)
    (hF : env.storageFault p = false) (hE : existsPath ⟨fo, fi⟩ p = false) :
    createFile env p c ⟨⟨fo, fi⟩, evs⟩ =
      (Except.ok (), ⟨⟨fo, fi ++ [(p, c)]⟩, evs⟩) := by
  simp [createFile, hF, hE]

theorem modifyFile_noFault {env : Env} {p : String} (c : String) (fo : List String)
    (fi : List (String × String)) (evs : List Ev)
    (hF : env.storageFault p = false) (hMem : p ∈ fi.map Prod.fst) :
    modifyFile env p c ⟨⟨fo, fi⟩, evs⟩ =
      (Except.ok (), ⟨⟨fo, setFile fi p c⟩, evs⟩) := by
  simp [modifyFile, hF, hMem]

theorem pureM_run {α : Type} (a : α) (s : S) : pureM a s = (Except.ok a, s) := rfl

theorem fetchM_run_ok {env : Env} {u t : String} (v : Vault) (evs : List Ev)
    (h : env.fetchText u = Except.ok t) :
    fetchM env u ⟨v, evs⟩ = (Except.ok t, ⟨v, evs ++ [Ev.fetchCall u]⟩) := by
  simp [fetchM, h]

theorem fetchM_run_err {env : Env} {u : String} (v : Vault) (evs : List Ev)
    (h : env.fetchText u = Except.error ()) :
    fetchM env u ⟨v, evs⟩ = (Except.error Err.network, ⟨v, evs ++ [Ev.fetchCall u]⟩) := by
  simp [fetchM, h]

theorem parseM_run_ok {env : Env} {t : String} {doc : FeedDoc} (s : S)
    (h : env.parseDoc t = Except.ok doc) :
    parseM env t s = (Except.ok doc, s) := by
  simp [parseM, h]

theorem parseM_run_err {env : Env} {t : String} (s : S)
    (h : env.parseDoc t = Except.error ()) :
    parseM env t s = (Except.error Err.parseFail, s) := by
  simp [parseM, h]

theorem existsPath_eq_false_iff (v : Vault) (p : String) :
    existsPath v p = false ↔ ¬ p ∈ v.folders ∧ ¬ p ∈ v.files.map Prod.fst := by
  simp [existsPath]

/-! ## The two target folders have distinct paths -/

theorem string_data_append (a b : String) : (a ++ b).data = a.data ++ b.data := by
  cases a
  cases b
  rfl

theorem splitSlashAux_append (xs ys : List Char) (acc : List Char) :
    splitSlashAux (xs ++ '/' :: ys) acc = splitSlashAux xs acc ++ splitSlashAux ys [] := by
  induction xs generalizing acc with
  | nil => simp [splitSlashAux]
  | cons c rest ih =>
      by_cases hc : c = '/' <;> simp [splitSlashAux, hc, ih]

theorem joinSlash_append_single (B : List (List Char)) (x : List Char) (hB : B ≠ []) :
    joinSlash (B ++ [x]) = joinSlash B ++ '/' :: x := by
  induction B with
  | nil => exact absurd rfl hB
  | cons b B' ih =>
      cases B' with
      | nil => rfl
      | cons b2 B2 =>
          show b ++ '/' :: joinSlash ((b2 :: B2) ++ [x]) = (b ++ '/' :: joinSlash (b2 :: B2)) ++ '/' :: x
          rw [ih (by simp)]
          simp

/-- Splitting `folderPath ++ "/" ++ seg` (for a slash-free, non-empty
`seg`) appends one segment to the split of `folderPath`. -/
theorem normalizePath_append_seg (fp : String) (seg : List Char) :
    (splitSlashAux (fp ++ String.mk ('/' :: seg)).data []).filter (fun s => s ≠ []) =
      ((splitSlashAux fp.data []).filter (fun s => s ≠ [])) ++
        (splitSlashAux seg []).filter (fun s => s ≠ []) := by
  have hd : (fp ++ String.mk ('/' :: seg)).data = fp.data ++ '/' :: seg := by
    rw [string_data_append]
  rw [hd, splitSlashAux_append, List.filter_append]

theorem length_joinSlash_append_single (B : List (List Char)) (x : List Char) :
    (joinSlash (B ++ [x])).length =
      (if B = [] then 0 else (joinSlash B).length + 1) + x.length := by
  cases hB : B with
  | nil => simp [joinSlash]
  | cons b B' =>
      rw [← hB, joinSlash_append_single B x (by rw [hB]; simp)]
      simp [hB]
      omega

theorem showsPath_ne_moviesPath (fp : String) : showsPath fp ≠ moviesPath fp := by
  intro h
  have hs : showsPath fp =
      String.mk (joinSlash (((splitSlashAux fp.data []).filter (fun s => s ≠ [])) ++
        [['s', 'h', 'o', 'w', 's']])) := by
    show normalizePath (fp ++ "/shows") = _
    unfold normalizePath
    have : (fp ++ "/shows") = fp ++ String.mk ('/' :: ['s', 'h', 'o', 'w', 's']) := rfl
    rw [this, normalizePath_append_seg]
    rfl
  have hm : moviesPath fp =
      String.mk (joinSlash (((splitSlashAux fp.data []).filter (fun s => s ≠ [])) ++
        [['m', 'o', 'v', 'i', 'e', 's']])) := by
    show normalizePath (fp ++ "/movies") = _
    unfold normalizePath
    have : (fp ++ "/movies") = fp ++ String.mk ('/' :: ['m', 'o', 'v', 'i', 'e', 's']) := rfl
    rw [this, normalizePath_append_seg]
    rfl
  rw [hs, hm] at h
  have hdata := congrArg String.data h
  simp only [String.data] at hdata
  have hlen := congrArg List.length hdata
  rw [length_joinSlash_append_single, length_joinSlash_append_single] at hlen
  by_cases hB : ((splitSlashAux fp.data []).filter (fun s => s ≠ [])) = [] <;>
    simp [hB] at hlen

/-! ## Fault-free characterization of `updateWatchlist` -/

theorem writeEntry_noFault {env : Env} {fp : String} {sh : ShowEntry}
    (fo : List String) (fi : List (String × String)) (evs : List Ev)
    (hF : env.storageFault (entryPath fp sh) = false)
    (hfold : ¬ entryPath fp sh ∈ fo) :
    writeEntry env fp sh ⟨⟨fo, fi⟩, evs⟩ =
      (Except.ok (), ⟨⟨fo, setFile fi (entryPath fp sh) (entryContent sh)⟩, evs⟩) := by
  unfold writeEntry
  rw [bindM_run_ok _ (getFileByPath_run _ _ _ _)]
  cases hlk : lookupFile fi (entryPath fp sh) with
  | some c0 =>
      have hgoal : bindM (pureM ())
          (fun _ => modifyFile env (entryPath fp sh) (entryContent sh)) ⟨⟨fo, fi⟩, evs⟩ =
          (Except.ok (), ⟨⟨fo, setFile fi (entryPath fp sh) (entryContent sh)⟩, evs⟩) := by
        rw [bindM_run_ok _ (pureM_run () _)]
        exact modifyFile_noFault _ _ _ _ hF (mem_keys_of_lookupFile_some hlk)
      exact hgoal
  | none =>
      have hE : existsPath ⟨fo, fi⟩ (entryPath fp sh) = false := by
        rw [existsPath_eq_false_iff]
        exact ⟨hfold, (lookupFile_eq_none_iff _ _).mp hlk⟩
      have hgoal : bindM (createFile env (entryPath fp sh) "")
          (fun _ => modifyFile env (entryPath fp sh) (entryContent sh)) ⟨⟨fo, fi⟩, evs⟩ =
          (Except.ok (), ⟨⟨fo, setFile fi (entryPath fp sh) (entryContent sh)⟩, evs⟩) := by
        rw [bindM_run_ok _ (createFile_noFault "" _ _ _ hF hE)]
        have hMem : entryPath fp sh ∈
            (fi ++ [(entryPath fp sh, "")]).map Prod.fst := by simp
        rw [modifyFile_noFault (entryContent sh) _ _ _ hF hMem]
        rw [setFile_append_of_none hlk, setFile_eq_append_of_none hlk]
      exact hgoal

theorem syncEntries_noFault {env : Env} {fp : String}
    (hF : ∀ p, env.storageFault p = false) :
    ∀ (l : List ShowEntry) (fo : List String) (fi : List (String × String)) (evs : List Ev),
      (∀ sh ∈ l, ¬ entryPath fp sh ∈ fo) →
      syncEntries env fp l ⟨⟨fo, fi⟩, evs⟩ =
        (Except.ok (), ⟨⟨fo, applyWrites (entryPairs fp l) fi⟩, evs⟩)
  | [], fo, fi, evs, _ => rfl
  | sh :: rest, fo, fi, evs, hcl => by
      show bindM (writeEntry env fp sh) _ _ = _
      rw [bindM_run_ok _ (writeEntry_noFault fo fi evs (hF _) (hcl sh (by simp)))]
      rw [syncEntries_noFault hF rest fo
        (setFile fi (entryPath fp sh) (entryContent sh)) evs
        (fun sh2 hm => hcl sh2 (by simp [hm]))]
      rfl

theorem updateWatchFile_noFault {env : Env} {fp : String}
    (fo : List String) (fi : List (String × String)) (evs : List Ev)
    (hF : env.storageFault (watchPath fp) = false)
    (hfold : ¬ watchPath fp ∈ fo) :
    updateWatchFile env fp ⟨⟨fo, fi⟩, evs⟩ =
      (Except.ok (), ⟨⟨fo, setFile fi (watchPath fp) watchTemplate⟩, evs⟩) := by
  unfold updateWatchFile
  rw [bindM_run_ok _ (getFileByPath_run _ _ _ _)]
  cases hlk : lookupFile fi (watchPath fp) with
  | some c0 =>
      have hgoal : bindM (pureM ())
          (fun _ => modifyFile env (watchPath fp) watchTemplate) ⟨⟨fo, fi⟩, evs⟩ =
          (Except.ok (), ⟨⟨fo, setFile fi (watchPath fp) watchTemplate⟩, evs⟩) := by
        rw [bindM_run_ok _ (pureM_run () _)]
        exact modifyFile_noFault _ _ _ _ hF (mem_keys_of_lookupFile_some hlk)
      exact hgoal
  | none =>
      have hE : existsPath ⟨fo, fi⟩ (watchPath fp) = false := by
        rw [existsPath_eq_false_iff]
        exact ⟨hfold, (lookupFile_eq_none_iff _ _).mp hlk⟩
      have hgoal : bindM (createFile env (watchPath fp) "")
          (fun _ => modifyFile env (watchPath fp) watchTemplate) ⟨⟨fo, fi⟩, evs⟩ =
          (Except.ok (), ⟨⟨fo, setFile fi (watchPath fp) watchTemplate⟩, evs⟩) := by
        rw [bindM_run_ok _ (createFile_noFault "" _ _ _ hF hE)]
        have hMem : watchPath fp ∈
            (fi ++ [(watchPath fp, "")]).map Prod.fst := by simp
        rw [modifyFile_noFault watchTemplate _ _ _ hF hMem]
        rw [setFile_append_of_none hlk, setFile_eq_append_of_none hlk]
      exact hgoal

theorem mem_foldersAfterEnsure {fp : String} {v : Vault} {q : String}
    (h : q ∈ foldersAfterEnsure fp v) :
    q ∈ v.folders ∨ q = showsPath fp ∨ q = moviesPath fp := by
  unfold foldersAfterEnsure foldersAfterShows at h
  by_cases h1 : existsPath v (showsPath fp) <;>
    by_cases h2 : existsPath v (moviesPath fp) <;>
      simp [h1, h2] at h <;> tauto

theorem entryPath_mem_writePaths {fp : String} {shows : List ShowEntry} {sh : ShowEntry}
    (h : sh ∈ shows) : entryPath fp sh ∈ writePaths shows fp := by
  simp only [writePaths, runWrites, entryPairs, List.map_append, List.map_map]
  apply List.mem_append_left
  exact List.mem_map.mpr ⟨sh, h, rfl⟩

theorem watchPath_mem_writePaths (fp : String) (shows : List ShowEntry) :
    watchPath fp ∈ writePaths shows fp := by
  simp [writePaths, runWrites]

theorem updateWatchlistBody_noFault {env : Env} {shows : List ShowEntry} {fp : String}
    (fo : List String) (fi : List (String × String)) (evs : List Ev)
    (hF : ∀ p, env.storageFault p = false)
    (hC : pathsClear shows fp ⟨fo, fi⟩) :
    updateWatchlistBody env shows fp ⟨⟨fo, fi⟩, evs⟩ =
      (Except.ok (), ⟨updateWatchlistV shows fp ⟨fo, fi⟩, evs⟩) := by
  have hnotin : ∀ p ∈ writePaths shows fp, ¬ p ∈ foldersAfterEnsure fp ⟨fo, fi⟩ := by
    intro p hp hmem
    rcases mem_foldersAfterEnsure hmem with h | h | h
    · exact (hC p hp).1 h
    · exact (hC p hp).2.1 h
    · exact (hC p hp).2.2 h
  have hsync : ∀ (fo1 : List String), fo1 = foldersAfterEnsure fp ⟨fo, fi⟩ →
      bindM (syncEntries env fp shows) (fun _ => updateWatchFile env fp) ⟨⟨fo1, fi⟩, evs⟩ =
        (Except.ok (), ⟨updateWatchlistV shows fp ⟨fo, fi⟩, evs⟩) := by
    intro fo1 hfo
    have hclear : ∀ sh ∈ shows, ¬ entryPath fp sh ∈ fo1 := by
      intro sh hm
      rw [hfo]
      exact hnotin _ (entryPath_mem_writePaths hm)
    rw [bindM_run_ok _ (syncEntries_noFault hF shows fo1 fi evs hclear)]
    have hwc : ¬ watchPath fp ∈ fo1 := by
      rw [hfo]
      exact hnotin _ (watchPath_mem_writePaths fp shows)
    rw [updateWatchFile_noFault fo1 (applyWrites (entryPairs fp shows) fi) evs (hF _) hwc]
    rw [hfo]
    show _ =
      (Except.ok (),
        ⟨⟨foldersAfterEnsure fp ⟨fo, fi⟩, applyWrites (runWrites shows fp) fi⟩, evs⟩)
    unfold runWrites
    rw [applyWrites_append]
    rfl
  unfold updateWatchlistBody
  rw [bindM_run_ok _ (adapterExists_run _ _ _)]
  rw [bindM_run_ok _ (adapterExists_run _ _ _)]
  cases h1 : existsPath ⟨fo, fi⟩ (showsPath fp) with
  | true =>
      rw [if_bool_true]
      rw [bindM_run_ok _ (pureM_run () _)]
      cases h2 : existsPath ⟨fo, fi⟩ (moviesPath fp) with
      | true =>
          rw [if_bool_true]
          rw [bindM_run_ok _ (pureM_run () _)]
          exact hsync fo (by simp [foldersAfterEnsure, foldersAfterShows, h1, h2])
      | false =>
          rw [if_bool_false]
          rw [bindM_run_ok _ (createFolder_noFault fo fi evs (hF _) h2)]
          exact hsync (moviesPath fp :: fo)
            (by simp [foldersAfterEnsure, foldersAfterShows, h1, h2])
  | false =>
      rw [if_bool_false]
      rw [bindM_run_ok _ (createFolder_noFault fo fi evs (hF _) h1)]
      cases h2 : existsPath ⟨fo, fi⟩ (moviesPath fp) with
      | true =>
          rw [if_bool_true]
          rw [bindM_run_ok _ (pureM_run () _)]
          exact hsync (showsPath fp :: fo)
            (by simp [foldersAfterEnsure, foldersAfterShows, h1, h2])
      | false =>
          rw [if_bool_false]
          have h2' : existsPath ⟨showsPath fp :: fo, fi⟩ (moviesPath fp) = false := by
            rw [existsPath_eq_false_iff] at h2 ⊢
            constructor
            · intro hmem
              rcases List.mem_cons.mp hmem with h | h
              · exact showsPath_ne_moviesPath fp h.symm
              · exact h2.1 h
            · exact h2.2
          rw [bindM_run_ok _ (createFolder_noFault (showsPath fp :: fo) fi evs (hF _) h2')]
          exact hsync (moviesPath fp :: showsPath fp :: fo)
            (by simp [foldersAfterEnsure, foldersAfterShows, h1, h2])

theorem updateWatchlist_noFault {env : Env} {shows : List ShowEntry} {fp : String}
    (v : Vault) (evs : List Ev)
    (hF : ∀ p, env.storageFault p = false)
    (hC : pathsClear shows fp v) :
    updateWatchlist env shows fp ⟨v, evs⟩ =
      (Except.ok (),
        ⟨updateWatchlistV shows fp v, evs ++ [Ev.syncCall shows.length]⟩) := by
  obtain ⟨fo, fi⟩ := v
  unfold updateWatchlist
  rw [bindM_run_ok _ (emit_run _ _ _)]
  exact tryCatchM_run_ok _
    (updateWatchlistBody_noFault fo fi (evs ++ [Ev.syncCall shows.length]) hF hC)

/-! ## Containment: the catch handlers make both entry points total -/

theorem tryCatchM_emit_fst (m : M Unit) (ev : Ev) (s : S) :
    (tryCatchM m (fun _ => emit ev) s).1 = Except.ok () := by
  unfold tryCatchM
  cases h : m s with
  | mk r s2 =>
      cases r with
      | ok a => rfl
      | error e => rfl

theorem updateWatchlist_fst_ok (env : Env) (shows : List ShowEntry) (fp : String) (s : S) :
    (updateWatchlist env shows fp s).1 = Except.ok () := by
  obtain ⟨v, evs⟩ := s
  unfold updateWatchlist
  rw [bindM_run_ok _ (emit_run _ _ _)]
  exact tryCatchM_emit_fst _ _ _

theorem checkFeed_fst_ok (env : Env) (settings : Settings) (fuel : Nat)
    (url : Option String) (s : S) :
    (checkFeed env settings fuel url s).1 = Except.ok () := by
  cases fuel with
  | zero => rfl
  | succ n =>
      show ((if resolveUrl url settings = "" then pureM () else _) s).1 = _
      by_cases h : resolveUrl url settings = ""
      · rw [if_pos h]; rfl
      · rw [if_neg h]
        exact tryCatchM_emit_fst _ _ _

theorem run_eq_ok_pair {m : M Unit} {s : S} (h : (m s).1 = Except.ok ()) :
    m s = (Except.ok (), (m s).2) := by
  cases hms : m s with
  | mk a b =>
      rw [hms] at h
      simp only at h
      rw [h]

/-! ## Page-step lemmas for `checkFeed` -/

theorem checkFeed_succ (env : Env) (settings : Settings) (fuel : Nat)
    (url : Option String) :
    checkFeed env settings (fuel + 1) url =
      if resolveUrl url settings = "" then pureM ()
      else
        tryCatchM
          (pageBody env settings (checkFeed env settings fuel) (resolveUrl url settings))
          (fun _ => emit Ev.feedErr) := rfl

theorem checkFeed_noop {env : Env} {settings : Settings} {url : Option String}
    (fuel : Nat) (h : resolveUrl url settings = "") (s : S) :
    checkFeed env settings fuel url s = (Except.ok (), s) := by
  cases fuel with
  | zero => rfl
  | succ n =>
      rw [checkFeed_succ, if_pos h]
      rfl

theorem nextStep_some (cont : Option String → M Unit) (nu : String) (hnu : nu ≠ "") :
    nextStep cont (some (some nu)) =
      bindM (emit (Ev.nextLog nu)) (fun _ => cont (some nu)) := by
  show (if nu = "" then pureM ()
    else bindM (emit (Ev.nextLog nu)) (fun _ => cont (some nu))) = _
  rw [if_neg hnu]

theorem nextStep_none (cont : Option String → M Unit) :
    nextStep cont none = pureM () := rfl

theorem checkFeed_fetch_err {env : Env} {settings : Settings} {fuel : Nat}
    {url : Option String} {u : String} (v : Vault) (evs : List Ev)
    (hu : resolveUrl url settings = u) (hne : u ≠ "")
    (hf : env.fetchText u = Except.error ()) :
    checkFeed env settings (fuel + 1) url ⟨v, evs⟩ =
      (Except.ok (), ⟨v, evs ++ [Ev.fetchCall u, Ev.feedErr]⟩) := by
  rw [checkFeed_succ, hu, if_neg hne]
  unfold pageBody
  rw [tryCatchM_bind_err _ _ (fetchM_run_err v evs hf)]
  simp [emit_run]

theorem checkFeed_parse_err {env : Env} {settings : Settings} {fuel : Nat}
    {url : Option String} {u t : String} (v : Vault) (evs : List Ev)
    (hu : resolveUrl url settings = u) (hne : u ≠ "")
    (hf : env.fetchText u = Except.ok t)
    (hp : env.parseDoc t = Except.error ()) :
    checkFeed env settings (fuel + 1) url ⟨v, evs⟩ =
      (Except.ok (), ⟨v, evs ++ [Ev.fetchCall u, Ev.feedErr]⟩) := by
  rw [checkFeed_succ, hu, if_neg hne]
  unfold pageBody
  rw [tryCatchM_bind_ok _ _ (fetchM_run_ok v evs hf)]
  rw [tryCatchM_bind_err _ _ (parseM_run_err _ hp)]
  simp [emit_run]

theorem checkFeed_page_next {env : Env} {settings : Settings} {fuel : Nat}
    {url : Option String} {u t : String} {doc : FeedDoc} {nu : String}
    (v : Vault) (evs : List Ev)
    (hu : resolveUrl url settings = u) (hne : u ≠ "")
    (hf : env.fetchText u = Except.ok t)
    (hp : env.parseDoc t = Except.ok doc)
    (hnext : doc.nextLink = some (some nu)) (hnu : nu ≠ "")
    (hF : ∀ p, env.storageFault p = false)
    (hC : pathsClear (doc.items.map (extractShow env)) settings.folderPath v) :
    checkFeed env settings (fuel + 1) url ⟨v, evs⟩ =
      checkFeed env settings fuel (some nu)
        ⟨updateWatchlistV (doc.items.map (extractShow env)) settings.folderPath v,
         evs ++ [Ev.fetchCall u, Ev.itemsLog doc.items.length,
                 Ev.syncCall doc.items.length, Ev.nextLog nu]⟩ := by
  rw [checkFeed_succ, hu, if_neg hne]
  unfold pageBody
  rw [tryCatchM_bind_ok _ _ (fetchM_run_ok v evs hf)]
  rw [tryCatchM_bind_ok _ _ (parseM_run_ok _ hp)]
  rw [tryCatchM_bind_ok _ _ (emit_run _ _ _)]
  rw [tryCatchM_bind_ok _ _ (updateWatchlist_noFault v
    ((evs ++ [Ev.fetchCall u]) ++ [Ev.itemsLog doc.items.length]) hF hC)]
  rw [hnext, nextStep_some _ _ hnu]
  rw [tryCatchM_bind_ok _ _ (emit_run _ _ _)]
  rw [tryCatchM_run_ok _ (run_eq_ok_pair (checkFeed_fst_ok env settings fuel (some nu) _))]
  rw [← run_eq_ok_pair (checkFeed_fst_ok env settings fuel (some nu) _)]
  have hev : ((evs ++ [Ev.fetchCall u] ++ [Ev.itemsLog doc.items.length]) ++
        [Ev.syncCall (doc.items.map (extractShow env)).length]) ++ [Ev.nextLog nu] =
      evs ++ [Ev.fetchCall u, Ev.itemsLog doc.items.length,
        Ev.syncCall doc.items.length, Ev.nextLog nu] := by
    simp
  rw [hev]

theorem checkFeed_page_last {env : Env} {settings : Settings} {fuel : Nat}
    {url : Option String} {u t : String} {doc : FeedDoc}
    (v : Vault) (evs : List Ev)
    (hu : resolveUrl url settings = u) (hne : u ≠ "")
    (hf : env.fetchText u = Except.ok t)
    (hp : env.parseDoc t = Except.ok doc)
    (hnext : doc.nextLink = none)
    (hF : ∀ p, env.storageFault p = false)
    (hC : pathsClear (doc.items.map (extractShow env)) settings.folderPath v) :
    checkFeed env settings (fuel + 1) url ⟨v, evs⟩ =
      (Except.ok (),
        ⟨updateWatchlistV (doc.items.map (extractShow env)) settings.folderPath v,
         evs ++ [Ev.fetchCall u, Ev.itemsLog doc.items.length,
                 Ev.syncCall doc.items.length]⟩) := by
  rw [checkFeed_succ, hu, if_neg hne]
  unfold pageBody
  rw [tryCatchM_bind_ok _ _ (fetchM_run_ok v evs hf)]
  rw [tryCatchM_bind_ok _ _ (parseM_run_ok _ hp)]
  rw [tryCatchM_bind_ok _ _ (emit_run _ _ _)]
  rw [tryCatchM_bind_ok _ _ (updateWatchlist_noFault v
    ((evs ++ [Ev.fetchCall u]) ++ [Ev.itemsLog doc.items.length]) hF hC)]
  rw [hnext, nextStep_none, tryCatchM_pure]
  simp

/-! ## Support lemmas for the claims -/

theorem folders_updateWatchlistV (shows : List ShowEntry) (fp : String) (v : Vault) :
    (updateWatchlistV shows fp v).folders = foldersAfterEnsure fp v := rfl

theorem files_updateWatchlistV (shows : List ShowEntry) (fp : String) (v : Vault) :
    (updateWatchlistV shows fp v).files = applyWrites (runWrites shows fp) v.files := rfl

theorem mem_foldersAfterShows_of_mem {fp : String} {v : Vault} {q : String}
    (h : q ∈ v.folders) : q ∈ foldersAfterShows fp v := by
  unfold foldersAfterShows
  by_cases h1 : existsPath v (showsPath fp) <;> simp [h1, h]

theorem mem_foldersAfterEnsure_of_mem {fp : String} {v : Vault} {q : String}
    (h : q ∈ foldersAfterShows fp v) : q ∈ foldersAfterEnsure fp v := by
  unfold foldersAfterEnsure
  by_cases h2 : existsPath v (moviesPath fp) <;> simp [h2, h]

theorem existsPath_eq_true_iff (v : Vault) (p : String) :
    existsPath v p = true ↔ p ∈ v.folders ∨ p ∈ v.files.map Prod.fst := by
  simp [existsPath]

theorem existsPath_shows_after (shows : List ShowEntry) (fp : String) (v : Vault) :
    existsPath (updateWatchlistV shows fp v) (showsPath fp) = true := by
  rw [existsPath_eq_true_iff]
  cases h : existsPath v (showsPath fp) with
  | true =>
      rcases (existsPath_eq_true_iff v _).mp h with hm | hm
      · exact Or.inl (mem_foldersAfterEnsure_of_mem (mem_foldersAfterShows_of_mem hm))
      · refine Or.inr ?_
        have hk : showsPath fp ∈ (applyWrites (runWrites shows fp) v.files).map Prod.fst :=
          (mem_keys_applyWrites _ _ _).mpr (Or.inl hm)
        exact hk
  | false =>
      refine Or.inl (mem_foldersAfterEnsure_of_mem ?_)
      unfold foldersAfterShows
      simp [h]

theorem existsPath_movies_after (shows : List ShowEntry) (fp : String) (v : Vault) :
    existsPath (updateWatchlistV shows fp v) (moviesPath fp) = true := by
  rw [existsPath_eq_true_iff]
  cases h : existsPath v (moviesPath fp) with
  | true =>
      rcases (existsPath_eq_true_iff v _).mp h with hm | hm
      · exact Or.inl (mem_foldersAfterEnsure_of_mem (mem_foldersAfterShows_of_mem hm))
      · refine Or.inr ?_
        have hk : moviesPath fp ∈ (applyWrites (runWrites shows fp) v.files).map Prod.fst :=
          (mem_keys_applyWrites _ _ _).mpr (Or.inl hm)
        exact hk
  | false =>
      refine Or.inl ?_
      show moviesPath fp ∈ foldersAfterEnsure fp v
      unfold foldersAfterEnsure
      simp [h]

theorem foldersAfterEnsure_of_exists {fp : String} {v : Vault}
    (h1 : existsPath v (showsPath fp) = true) (h2 : existsPath v (moviesPath fp) = true) :
    foldersAfterEnsure fp v = v.folders := by
  unfold foldersAfterEnsure foldersAfterShows
  simp [h1, h2]

theorem pathsClear_updateWatchlistV {sh1 sh2 : List ShowEntry} {fp : String} {v : Vault}
    (hC : pathsClear sh2 fp v) : pathsClear sh2 fp (updateWatchlistV sh1 fp v) := by
  intro p hp
  obtain ⟨h1, h2, h3⟩ := hC p hp
  refine ⟨?_, h2, h3⟩
  intro hmem
  rcases mem_foldersAfterEnsure hmem with h | h | h
  · exact h1 h
  · exact h2 h
  · exact h3 h

/-- The lookup result after syncing three pages in sequence agrees with
the lookup result after syncing the concatenation of the three pages in
one call. -/
theorem lookup_nested_eq_concat (sh1 sh2 sh3 : List ShowEntry) (fp : String)
    (v : Vault) (q : String) :
    lookupFile (updateWatchlistV sh3 fp
        (updateWatchlistV sh2 fp (updateWatchlistV sh1 fp v))).files q =
      lookupFile (updateWatchlistV (sh1 ++ sh2 ++ sh3) fp v).files q := by
  show lookupFile (applyWrites (runWrites sh3 fp)
      (applyWrites (runWrites sh2 fp) (applyWrites (runWrites sh1 fp) v.files))) q =
    lookupFile (applyWrites (runWrites (sh1 ++ sh2 ++ sh3) fp) v.files) q
  rw [lookupFile_applyWrites, lookupFile_applyWrites, lookupFile_applyWrites,
    lookupFile_applyWrites]
  simp only [runWrites, entryPairs, List.map_append, lastWrite_append]
  cases hw : lastWrite [(watchPath fp, watchTemplate)] q with
  | some x => simp only [orO_some_left]
  | none => simp only [orO_none_left, orO_assoc]

/-- The vault trace of a three-page chain: fetch, item-count log and
sync call per page, with the next-page log between pages. -/
def pageTrace (u1 u2 u3 : String) (n1 n2 n3 : Nat) : List Ev :=
  [Ev.fetchCall u1, Ev.itemsLog n1, Ev.syncCall n1, Ev.nextLog u2,
   Ev.fetchCall u2, Ev.itemsLog n2, Ev.syncCall n2, Ev.nextLog u3,
   Ev.fetchCall u3, Ev.itemsLog n3, Ev.syncCall n3]

/-- Trace events that record a call to the HTTP transport. -/
def isFetchEv : Ev → Bool
  | Ev.fetchCall _ => true
  | _ => false

theorem resolveUrl_none (settings : Settings) :
    resolveUrl none settings = settings.feedUrl := rfl

theorem resolveUrl_some {u : String} (settings : Settings) (h : u ≠ "") :
    resolveUrl (some u) settings = u := by
  show (if u = "" then settings.feedUrl else u) = u
  rw [if_neg h]

theorem sanitizeChar_idem (c : Char) : sanitizeChar (sanitizeChar c) = sanitizeChar c := by
  by_cases h : c ∈ illegalChars <;> simp [sanitizeChar, h]

theorem lastWrite_runWrites_watch (shows : List ShowEntry) (fp : String) :
    lastWrite (runWrites shows fp) (watchPath fp) = some watchTemplate := by
  unfold runWrites
  rw [lastWrite_append]
  have hsingle : lastWrite [(watchPath fp, watchTemplate)] (watchPath fp) =
      some watchTemplate := by
    simp [lastWrite]
  rw [hsingle, orO_some_left]

theorem lookup_watch_after (shows : List ShowEntry) (fp : String) (v : Vault) :
    lookupFile (updateWatchlistV shows fp v).files (watchPath fp) = some watchTemplate := by
  show lookupFile (applyWrites (runWrites shows fp) v.files) (watchPath fp) = _
  rw [lookupFile_applyWrites, lastWrite_runWrites_watch, orO_some_left]

/-! ## Concrete environments and inputs for witnesses and
counterexamples -/

/-- An environment whose oracles are never consulted successfully: used
for claims that only exercise `updateWatchlist`. -/
def nullEnv : Env :=
  { fetchText := fun _ => Except.error ()
  , parseDoc := fun _ => Except.error ()
  , dateYear := fun _ => none
  , storageFault := fun _ => false }

/-- One page that parses to an empty item list with no next link. -/
def emptyFeedEnv : Env :=
  { fetchText := fun _ => Except.ok "page"
  , parseDoc := fun _ => Except.ok ⟨[], none⟩
  , dateYear := fun _ => none
  , storageFault := fun _ => false }

/-- Every page fetches but nothing parses. -/
def badParseEnv : Env :=
  { fetchText := fun _ => Except.ok "junk"
  , parseDoc := fun _ => Except.error ()
  , dateYear := fun _ => none
  , storageFault := fun _ => false }

/-- Page 1 at `"u1"` succeeds with no items and links to `"u2"`, whose
fetch fails. -/
def failEnv : Env :=
  { fetchText := fun u => if u = "u1" then Except.ok "t1" else Except.error ()
  , parseDoc := fun _ => Except.ok ⟨[], some (some "u2")⟩
  , dateYear := fun _ => none
  , storageFault := fun _ => false }

/-- A feed item whose thumbnail element is present but carries no `url`
attribute. -/
def c4Item : FeedItem :=
  { title := some "Alpha"
  , link := some "L"
  , pubDate := some "Tue, 01 Aug 2023"
  , description := some "D"
  , category := some "movie"
  , thumbnail := some none
  , keywords := none
  , rating := none
  , guid := some "G" }

/-- A feed item with every sub-element absent. -/
def emptyItem : FeedItem :=
  { title := none, link := none, pubDate := none, description := none
  , category := none, thumbnail := none, keywords := none, rating := none
  , guid := none }

/-- A sample entry classified as a movie. -/
def sampleShow : ShowEntry :=
  { title := "Alpha", link := "L", pubDate := "today", description := "D"
  , category := "Movie", poster := some "P", keywords := "K", rating := "R"
  , guid := "G", year := none }

/-- A one-item page for the pagination witness. -/
def c2Item : FeedItem :=
  { title := some "Beta", link := none, pubDate := none, description := none
  , category := none, thumbnail := none, keywords := none, rating := none
  , guid := none }

/-- A three-page chain `"u1" → "u2" → "u3"` with the given item lists
and no next link on the third page. -/
def chainEnvW : Env :=
  { fetchText := fun u =>
      if u = "u1" then Except.ok "t1"
      else if u = "u2" then Except.ok "t2"
      else if u = "u3" then Except.ok "t3"
      else Except.error ()
  , parseDoc := fun t =>
      if t = "t1" then Except.ok ⟨[c2Item], some (some "u2")⟩
      else if t = "t2" then Except.ok ⟨[], some (some "u3")⟩
      else if t = "t3" then Except.ok ⟨[], none⟩
      else Except.error ()
  , dateYear := fun _ => none
  , storageFault := fun _ => false }

/-! ## The claims -/

/-- C1: every network, parse, or storage failure raised during a sync
run is caught inside the run: `checkFeed` and `updateWatchlist` always
return normally (first two conjuncts, over every environment, settings,
fuel, and state), and in the spec's own partial-failure scenario — page 1
synchronizes and then page 2's fetch fails — the final vault is exactly
the vault produced by syncing page 1, so the notes written before the
failure remain, and the run ends with the error logged. -/
theorem claim_c1_containment :
    (∀ (env : Env) (settings : Settings) (fuel : Nat) (url : Option String) (s : S),
      (checkFeed env settings fuel url s).1 = Except.ok ()) ∧
    (∀ (env : Env) (shows : List ShowEntry) (fp : String) (s : S),
      (updateWatchlist env shows fp s).1 = Except.ok ()) ∧
    (∀ (env : Env) (settings : Settings) (fuel : Nat) (u1 u2 t1 : String)
      (doc1 : FeedDoc) (v : Vault) (evs : List Ev),
      settings.feedUrl = u1 → u1 ≠ "" →
      env.fetchText u1 = Except.ok t1 →
      env.parseDoc t1 = Except.ok doc1 →
      doc1.nextLink = some (some u2) → u2 ≠ "" →
      env.fetchText u2 = Except.error () →
      (∀ p, env.storageFault p = false) →
      pathsClear (doc1.items.map (extractShow env)) settings.folderPath v →
      checkFeed env settings (fuel + 1 + 1) none ⟨v, evs⟩ =
        (Except.ok (),
          ⟨updateWatchlistV (doc1.items.map (extractShow env)) settings.folderPath v,
           evs ++ [Ev.fetchCall u1, Ev.itemsLog doc1.items.length,
                   Ev.syncCall doc1.items.length, Ev.nextLog u2,
                   Ev.fetchCall u2, Ev.feedErr]⟩)) := by
  refine ⟨checkFeed_fst_ok, updateWatchlist_fst_ok, ?_⟩
  intro env settings fuel u1 u2 t1 doc1 v evs hcfg h1 hf1 hp1 hnext h2 hf2 hF hC
  rw [checkFeed_page_next v evs ((resolveUrl_none settings).trans hcfg) h1 hf1 hp1
    hnext h2 hF hC]
  rw [checkFeed_fetch_err _ _ (resolveUrl_some settings h2) h2 hf2]
  simp

/-- C1 witness: the scenario instantiated at `failEnv` (page 1 empty,
page 2's fetch rejects) from the empty vault. -/
theorem claim_c1_witness :
    checkFeed failEnv ⟨"u1", "plex"⟩ (0 + 1 + 1) none ⟨⟨[], []⟩, []⟩ =
      (Except.ok (),
        ⟨updateWatchlistV [] "plex" ⟨[], []⟩,
         [Ev.fetchCall "u1", Ev.itemsLog 0, Ev.syncCall 0, Ev.nextLog "u2",
          Ev.fetchCall "u2", Ev.feedErr]⟩) :=
  claim_c1_containment.2.2 failEnv ⟨"u1", "plex"⟩ 0 "u1" "u2" "t1"
    ⟨[], some (some "u2")⟩ ⟨[], []⟩ [] rfl (by decide) rfl rfl rfl (by decide) rfl
    (fun _ => rfl) (by decide)

/-- C2: a feed whose pages chain `u1 → u2 → u3` with no next link on the
third page fetches exactly three times, synchronizes each page's entries
to the vault (one `syncCall` between each fetch and the next) before the
next page is fetched, and the resulting notes agree pointwise with a
single sync of the concatenation of the three pages' entries in feed
order. -/
theorem claim_c2_pagination (env : Env) (settings : Settings)
    (u1 u2 u3 t1 t2 t3 : String) (doc1 doc2 doc3 : FeedDoc)
    (v : Vault) (evs : List Ev) (fuel : Nat)
    (hcfg : settings.feedUrl = u1)
    (h1 : u1 ≠ "") (h2 : u2 ≠ "") (h3 : u3 ≠ "")
    (hf1 : env.fetchText u1 = Except.ok t1) (hp1 : env.parseDoc t1 = Except.ok doc1)
    (hn1 : doc1.nextLink = some (some u2))
    (hf2 : env.fetchText u2 = Except.ok t2) (hp2 : env.parseDoc t2 = Except.ok doc2)
    (hn2 : doc2.nextLink = some (some u3))
    (hf3 : env.fetchText u3 = Except.ok t3) (hp3 : env.parseDoc t3 = Except.ok doc3)
    (hn3 : doc3.nextLink = none)
    (hF : ∀ p, env.storageFault p = false)
    (hC1 : pathsClear (doc1.items.map (extractShow env)) settings.folderPath v)
    (hC2 : pathsClear (doc2.items.map (extractShow env)) settings.folderPath v)
    (hC3 : pathsClear (doc3.items.map (extractShow env)) settings.folderPath v) :
    checkFeed env settings (fuel + 1 + 1 + 1) none ⟨v, evs⟩ =
      (Except.ok (),
        ⟨updateWatchlistV (doc3.items.map (extractShow env)) settings.folderPath
           (updateWatchlistV (doc2.items.map (extractShow env)) settings.folderPath
             (updateWatchlistV (doc1.items.map (extractShow env)) settings.folderPath v)),
         evs ++ pageTrace u1 u2 u3 doc1.items.length doc2.items.length
           doc3.items.length⟩) ∧
    (pageTrace u1 u2 u3 doc1.items.length doc2.items.length
      doc3.items.length).countP isFetchEv = 3 ∧
    (∀ q, lookupFile
        (checkFeed env settings (fuel + 1 + 1 + 1) none ⟨v, evs⟩).2.vault.files q =
      lookupFile (updateWatchlistV
        (doc1.items.map (extractShow env) ++ doc2.items.map (extractShow env) ++
          doc3.items.map (extractShow env))
        settings.folderPath v).files q) := by
  have hmain : checkFeed env settings (fuel + 1 + 1 + 1) none ⟨v, evs⟩ =
      (Except.ok (),
        ⟨updateWatchlistV (doc3.items.map (extractShow env)) settings.folderPath
           (updateWatchlistV (doc2.items.map (extractShow env)) settings.folderPath
             (updateWatchlistV (doc1.items.map (extractShow env)) settings.folderPath v)),
         evs ++ pageTrace u1 u2 u3 doc1.items.length doc2.items.length
           doc3.items.length⟩) := by
    rw [checkFeed_page_next v evs ((resolveUrl_none settings).trans hcfg) h1 hf1 hp1
      hn1 h2 hF hC1]
    rw [checkFeed_page_next _ _ (resolveUrl_some settings h2) h2 hf2 hp2 hn2 h3 hF
      (pathsClear_updateWatchlistV hC2)]
    rw [checkFeed_page_last _ _ (resolveUrl_some settings h3) h3 hf3 hp3 hn3 hF
      (pathsClear_updateWatchlistV (pathsClear_updateWatchlistV hC3))]
    simp [pageTrace]
  refine ⟨hmain, rfl, ?_⟩
  intro q
  rw [hmain]
  exact lookup_nested_eq_concat _ _ _ settings.folderPath v q

/-- C2 witness: the chain instantiated at `chainEnvW` (pages with one,
zero, and zero items) from the empty vault, with the lookup conjunct
evaluated at the index-note path. -/
theorem claim_c2_witness :
    (pageTrace "u1" "u2" "u3" 1 0 0).countP isFetchEv = 3 ∧
    lookupFile (checkFeed chainEnvW ⟨"u1", "plex"⟩ (0 + 1 + 1 + 1) none
        ⟨⟨[], []⟩, []⟩).2.vault.files (watchPath "plex") =
      lookupFile (updateWatchlistV
        (List.map (extractShow chainEnvW) [c2Item] ++
          List.map (extractShow chainEnvW) [] ++ List.map (extractShow chainEnvW) [])
        "plex" ⟨[], []⟩).files (watchPath "plex") :=
  ⟨(claim_c2_pagination chainEnvW ⟨"u1", "plex"⟩ "u1" "u2" "u3" "t1" "t2" "t3"
      ⟨[c2Item], some (some "u2")⟩ ⟨[], some (some "u3")⟩ ⟨[], none⟩ ⟨[], []⟩ [] 0
      rfl (by decide) (by decide) (by decide) rfl rfl rfl rfl rfl rfl rfl rfl rfl
      (fun _ => rfl) (by decide) (by decide) (by decide)).2.1,
   (claim_c2_pagination chainEnvW ⟨"u1", "plex"⟩ "u1" "u2" "u3" "t1" "t2" "t3"
      ⟨[c2Item], some (some "u2")⟩ ⟨[], some (some "u3")⟩ ⟨[], none⟩ ⟨[], []⟩ [] 0
      rfl (by decide) (by decide) (by decide) rfl rfl rfl rfl rfl rfl rfl rfl rfl
      (fun _ => rfl) (by decide) (by decide) (by decide)).2.2 (watchPath "plex")⟩

/-- C3: running `updateWatchlist` a second time with the same entry list
and root path on the vault produced by the first run changes nothing: the
folder list is unchanged, no file is created or removed, and every note's
content is byte-identical to the first run's. -/
theorem claim_c3_idempotent (env : Env) (shows : List ShowEntry) (fp : String)
    (v : Vault) (evs evs2 : List Ev)
    (hF : ∀ p, env.storageFault p = false)
    (hC : pathsClear shows fp v) :
    ((updateWatchlist env shows fp
        ⟨(updateWatchlist env shows fp ⟨v, evs⟩).2.vault, evs2⟩).2.vault.folders =
      (updateWatchlist env shows fp ⟨v, evs⟩).2.vault.folders) ∧
    (∀ q, q ∈ (updateWatchlist env shows fp
        ⟨(updateWatchlist env shows fp ⟨v, evs⟩).2.vault, evs2⟩).2.vault.files.map
          Prod.fst ↔
      q ∈ (updateWatchlist env shows fp ⟨v, evs⟩).2.vault.files.map Prod.fst) ∧
    (∀ q, lookupFile (updateWatchlist env shows fp
        ⟨(updateWatchlist env shows fp ⟨v, evs⟩).2.vault, evs2⟩).2.vault.files q =
      lookupFile (updateWatchlist env shows fp ⟨v, evs⟩).2.vault.files q) := by
  have h1 : (updateWatchlist env shows fp ⟨v, evs⟩).2.vault =
      updateWatchlistV shows fp v := by
    rw [updateWatchlist_noFault v evs hF hC]
  have hC2 : pathsClear shows fp (updateWatchlistV shows fp v) :=
    pathsClear_updateWatchlistV hC
  have h2 : (updateWatchlist env shows fp
      ⟨updateWatchlistV shows fp v, evs2⟩).2.vault =
      updateWatchlistV shows fp (updateWatchlistV shows fp v) := by
    rw [updateWatchlist_noFault _ evs2 hF hC2]
  rw [h1, h2]
  refine ⟨?_, ?_, ?_⟩
  · rw [folders_updateWatchlistV]
    exact foldersAfterEnsure_of_exists (existsPath_shows_after shows fp v)
      (existsPath_movies_after shows fp v)
  · intro q
    constructor
    · intro hmem
      rcases (mem_keys_applyWrites _ _ _).mp hmem with h | h
      · exact h
      · have : q ∈ (applyWrites (runWrites shows fp) v.files).map Prod.fst :=
          (mem_keys_applyWrites _ _ _).mpr (Or.inr h)
        exact this
    · intro hmem
      exact (mem_keys_applyWrites _ _ _).mpr (Or.inl hmem)
  · intro q
    show lookupFile (applyWrites (runWrites shows fp)
        (applyWrites (runWrites shows fp) v.files)) q =
      lookupFile (applyWrites (runWrites shows fp) v.files) q
    rw [lookupFile_applyWrites, lookupFile_applyWrites]
    exact orO_absorb _ _

/-- C3 witness: the second run at a one-movie entry list from the empty
vault leaves the note's content unchanged. -/
theorem claim_c3_witness :
    pathsClear [sampleShow] "plex" ⟨[], []⟩ ∧
    lookupFile (updateWatchlist nullEnv [sampleShow] "plex"
        ⟨(updateWatchlist nullEnv [sampleShow] "plex" ⟨⟨[], []⟩, []⟩).2.vault,
         []⟩).2.vault.files (entryPath "plex" sampleShow) =
      lookupFile (updateWatchlist nullEnv [sampleShow] "plex"
        ⟨⟨[], []⟩, []⟩).2.vault.files (entryPath "plex" sampleShow) :=
  ⟨by decide,
   (claim_c3_idempotent nullEnv [sampleShow] "plex" ⟨[], []⟩ [] []
      (fun _ => rfl) (by decide)).2.2 (entryPath "plex" sampleShow)⟩

/-- C4: the claim that every string field of an extracted entry is a
string defaulting to the empty string — never an absence marker — fails
on the poster field: a thumbnail element present without a `url`
attribute yields null (`none`), and the rendered front matter contains
the literal `poster: null`.  All other fields of an item with every
sub-element absent do default to the empty string, and `updateWatchlist`
declares `poster: string` in its own parameter type, so the claim
reflects the code's intent and the extraction is the slip. -/
theorem claim_c4_poster_null_bug :
    (extractShow nullEnv c4Item).poster = none ∧
    strContains (entryContent (extractShow nullEnv c4Item)) "poster: null" = true ∧
    extractShow nullEnv emptyItem =
      { title := "", link := "", pubDate := "", description := "", category := ""
      , poster := some "", keywords := "", rating := "", guid := "", year := none } := by
  refine ⟨rfl, by decide, rfl⟩

/-- C5 counterexample: with a non-empty feed URL and an EMPTY root
folder path, triggering a sync is not a no-op: the feed is fetched (the
trace holds a fetch call) and the vault is modified (`watch.md` is
created at the vault root with the index template, where no file existed
before). -/
theorem claim_c5_counterexample :
    (checkFeed emptyFeedEnv ⟨"http://feed", ""⟩ 1 none ⟨⟨[], []⟩, []⟩).2.events =
      [Ev.fetchCall "http://feed", Ev.itemsLog 0, Ev.syncCall 0] ∧
    lookupFile (checkFeed emptyFeedEnv ⟨"http://feed", ""⟩ 1 none
        ⟨⟨[], []⟩, []⟩).2.vault.files (watchPath "") = some watchTemplate ∧
    lookupFile (⟨[], []⟩ : Vault).files (watchPath "") = none := by
  refine ⟨by decide, by decide, rfl⟩

/-- C5 amended: only the feed URL gates the run — when it is the empty
string (in particular under the default settings), triggering a sync is
a no-op: nothing is fetched and the state is returned unchanged.  An
empty root folder path does not prevent the run (see the
counterexample). -/
theorem claim_c5_amended (env : Env) (fp : String) (fuel : Nat) (s : S) :
    checkFeed env ⟨"", fp⟩ fuel none s = (Except.ok (), s) ∧
    checkFeed env DEFAULT_SETTINGS fuel none s = (Except.ok (), s) := by
  constructor
  · exact @checkFeed_noop env ⟨"", fp⟩ none fuel rfl s
  · exact @checkFeed_noop env DEFAULT_SETTINGS none fuel rfl s

/-- C6: when the fetched markup cannot be parsed into a document, the
run aborts with the parse error logged exactly once: the vault is
untouched (no entry of that page is written), the transport is consulted
exactly once (no retry and no further pages), and the error does not
escape. -/
theorem claim_c6_parse_error {env : Env} {settings : Settings} {fuel : Nat}
    {u t : String} (v : Vault) (evs : List Ev)
    (hcfg : settings.feedUrl = u) (hne : u ≠ "")
    (hf : env.fetchText u = Except.ok t)
    (hp : env.parseDoc t = Except.error ()) :
    checkFeed env settings (fuel + 1) none ⟨v, evs⟩ =
      (Except.ok (), ⟨v, evs ++ [Ev.fetchCall u, Ev.feedErr]⟩) :=
  checkFeed_parse_err v evs ((resolveUrl_none settings).trans hcfg) hne hf hp

/-- C6 witness: the parse failure instantiated at `badParseEnv` from the
empty vault. -/
theorem claim_c6_witness :
    checkFeed badParseEnv ⟨"u", "plex"⟩ 5 none ⟨⟨[], []⟩, []⟩ =
      (Except.ok (), ⟨⟨[], []⟩, [Ev.fetchCall "u", Ev.feedErr]⟩) :=
  @claim_c6_parse_error badParseEnv ⟨"u", "plex"⟩ 4 "u" "junk" ⟨[], []⟩ []
    rfl (by decide) rfl rfl

/-- C7 counterexample: the index note's content is the fixed template,
whose query targets the hardcoded path `plex/movies`; for a run rooted at
`media` the written content does not reference the run's own movies
folder `media/movies`, refuting the claim that the embedded query is over
the run's movies folder. -/
theorem claim_c7_counterexample :
    lookupFile (updateWatchlist nullEnv [] "media" ⟨⟨[], []⟩, []⟩).2.vault.files
      (watchPath "media") = some watchTemplate ∧
    strContains watchTemplate ("from \"" ++ moviesPath "media" ++ "\"") = false := by
  refine ⟨by decide, by decide⟩

/-- C7 amended: after every fault-free `updateWatchlist` run,
`rootPath/watch.md` holds exactly the fixed template — created when
absent, fully overwritten otherwise, with no entry-specific substitution
(the content is the same constant for every entry list and every root) —
and the query embedded in that template targets the hardcoded path
`plex/movies`, which coincides with the run's movies folder only when the
root is `plex`. -/
theorem claim_c7_watch_file (env : Env) (shows : List ShowEntry) (fp : String)
    (v : Vault) (evs : List Ev)
    (hF : ∀ p, env.storageFault p = false)
    (hC : pathsClear shows fp v) :
    lookupFile (updateWatchlist env shows fp ⟨v, evs⟩).2.vault.files (watchPath fp) =
      some watchTemplate ∧
    strContains watchTemplate "from \"plex/movies\"" = true := by
  constructor
  · have h1 : (updateWatchlist env shows fp ⟨v, evs⟩).2.vault =
        updateWatchlistV shows fp v := by
      rw [updateWatchlist_noFault v evs hF hC]
    rw [h1]
    exact lookup_watch_after shows fp v
  · decide

/-- C7 witness: the amended claim instantiated at the `plex` root from
the empty vault. -/
theorem claim_c7_witness :
    lookupFile (updateWatchlist nullEnv [] "plex" ⟨⟨[], []⟩, []⟩).2.vault.files
      (watchPath "plex") = some watchTemplate ∧
    strContains watchTemplate "from \"plex/movies\"" = true :=
  claim_c7_watch_file nullEnv [] "plex" ⟨[], []⟩ [] (fun _ => rfl) (by decide)

/-- C8: `classify` returns `"movie"` exactly when the entry's category
equals `"movie"` under case-insensitive comparison, `"series"` for every
other value, and the per-entry target path selects the movies folder
exactly when `classify` says `"movie"` and the shows folder otherwise. -/
theorem claim_c8_classify :
    (∀ cat : String, classify cat = "movie" ↔ toLowerStr cat = toLowerStr "movie") ∧
    (∀ cat : String, toLowerStr cat ≠ toLowerStr "movie" → classify cat = "series") ∧
    (∀ (fp : String) (sh : ShowEntry),
      entryPath fp sh =
        normalizePath ((if classify sh.category = "movie" then moviesPath fp
          else showsPath fp) ++ "/" ++ sanitize sh.title ++ ".md")) := by
  have hml : toLowerStr "movie" = "movie" := by decide
  refine ⟨?_, ?_, ?_⟩
  · intro cat
    rw [hml]
    unfold classify
    by_cases h : toLowerStr cat = "movie" <;> simp [h]
  · intro cat h
    rw [hml] at h
    unfold classify
    rw [if_neg h]
  · intro fp sh
    unfold entryPath
    by_cases h : toLowerStr sh.category = "movie"
    · have hc : classify sh.category = "movie" := by
        unfold classify
        rw [if_pos h]
      rw [if_pos h, if_pos hc]
    · have hc : classify sh.category = "series" := by
        unfold classify
        rw [if_neg h]
      have hc2 : ¬ classify sh.category = "movie" := by
        rw [hc]
        decide
      rw [if_neg h, if_neg hc2]

/-- C8 witness: the spec's three examples, through the theorem. -/
theorem claim_c8_witness :
    classify "Movie" = "movie" ∧ classify "" = "series" ∧
      classify "Sitcom" = "series" :=
  ⟨(claim_c8_classify.1 "Movie").mpr (by decide),
   claim_c8_classify.2.1 "" (by decide),
   claim_c8_classify.2.1 "Sitcom" (by decide)⟩

/-- C9: sanitization replaces exactly the characters
`/ \ ? < > : * | "` by `_` (the output never contains one of them, every
listed character maps to `_`, every other character passes through, and
the whole map is character-wise), it is idempotent, and it is the
identity on titles free of those characters; as a Lean function it is
pure and total by construction. -/
theorem claim_c9_sanitize :
    (∀ t : String, ∀ c ∈ (sanitize t).data, ¬ c ∈ illegalChars) ∧
    (∀ c ∈ illegalChars, sanitizeChar c = '_') ∧
    (∀ c : Char, ¬ c ∈ illegalChars → sanitizeChar c = c) ∧
    (∀ t : String, (sanitize t).data = t.data.map sanitizeChar) ∧
    (∀ t : String, sanitize (sanitize t) = sanitize t) ∧
    (∀ t : String, (∀ c ∈ t.data, ¬ c ∈ illegalChars) → sanitize t = t) := by
  refine ⟨?_, ?_, ?_, ?_, ?_, ?_⟩
  · intro t c hc
    have hc' : c ∈ t.data.map sanitizeChar := hc
    obtain ⟨c0, _, rfl⟩ := List.mem_map.mp hc'
    unfold sanitizeChar
    by_cases h : c0 ∈ illegalChars
    · rw [if_pos h]
      decide
    · rw [if_neg h]
      exact h
  · intro c hc
    simp [sanitizeChar, hc]
  · intro c hc
    simp [sanitizeChar, hc]
  · intro t
    rfl
  · intro t
    show String.mk ((t.data.map sanitizeChar).map sanitizeChar) =
      String.mk (t.data.map sanitizeChar)
    rw [List.map_map]
    congr 1
    exact List.map_congr_left (fun c _ => sanitizeChar_idem c)
  · intro t h
    show String.mk (t.data.map sanitizeChar) = t
    have hmap : t.data.map sanitizeChar = t.data := by
      have h1 : t.data.map sanitizeChar = t.data.map id :=
        List.map_congr_left (fun c hc => by
          unfold sanitizeChar
          rw [if_neg (h c hc)]
          rfl)
      rw [h1, List.map_id]
    rw [hmap]

/-- C9 witness: identity on a clean title (through the conditional
conjunct) and idempotence at a title holding a colon. -/
theorem claim_c9_witness :
    sanitize "abc" = "abc" ∧ sanitize (sanitize "a:b") = sanitize "a:b" :=
  ⟨claim_c9_sanitize.2.2.2.2.2 "abc" (by decide),
   claim_c9_sanitize.2.2.2.2.1 "a:b"⟩

/-- C10: `updateWatchlist` with an empty entry list still creates
`rootPath/shows` and `rootPath/movies` when they are missing and still
overwrites `rootPath/watch.md` with the index template: neither the
folder phase nor the index regeneration depends on the entry list being
non-empty. -/
theorem claim_c10_empty_entries (env : Env) (fp : String) (v : Vault) (evs : List Ev)
    (hF : ∀ p, env.storageFault p = false)
    (hC : pathsClear [] fp v) :
    (existsPath v (showsPath fp) = false →
      showsPath fp ∈ (updateWatchlist env [] fp ⟨v, evs⟩).2.vault.folders) ∧
    (existsPath v (moviesPath fp) = false →
      moviesPath fp ∈ (updateWatchlist env [] fp ⟨v, evs⟩).2.vault.folders) ∧
    lookupFile (updateWatchlist env [] fp ⟨v, evs⟩).2.vault.files (watchPath fp) =
      some watchTemplate := by
  have h1 : (updateWatchlist env [] fp ⟨v, evs⟩).2.vault =
      updateWatchlistV [] fp v := by
    rw [updateWatchlist_noFault v evs hF hC]
  refine ⟨?_, ?_, ?_⟩
  · intro hsp
    rw [h1, folders_updateWatchlistV]
    apply mem_foldersAfterEnsure_of_mem
    unfold foldersAfterShows
    simp [hsp]
  · intro hmp
    rw [h1, folders_updateWatchlistV]
    unfold foldersAfterEnsure
    simp [hmp]
  · rw [h1]
    exact lookup_watch_after [] fp v

/-- C10 witness: from the empty vault at root `plex`, the run with no
entries creates the shows folder and writes the index template. -/
theorem claim_c10_witness :
    showsPath "plex" ∈
      (updateWatchlist nullEnv [] "plex" ⟨⟨[], []⟩, []⟩).2.vault.folders ∧
    lookupFile (updateWatchlist nullEnv [] "plex" ⟨⟨[], []⟩, []⟩).2.vault.files
      (watchPath "plex") = some watchTemplate :=
  ⟨(claim_c10_empty_entries nullEnv "plex" ⟨[], []⟩ [] (fun _ => rfl)
      (by decide)).1 (by decide),
   (claim_c10_empty_entries nullEnv "plex" ⟨[], []⟩ [] (fun _ => rfl)
      (by decide)).2.2⟩

end PlexSync

